import Mathlib

/-!
Verification of the Office Assistant backend (`app.py`).

The file shallowly embeds the route handlers and helper functions of the
Flask application: Python strings are modelled as `List Char` (or Lean
`String` where convenient), Python `str.split` / `in` / `strip` are given
explicit executable models, database tables become lists of row structures,
and the outbound HTTP / language-model calls become explicit function
arguments so that statements such as "no network request is made" are
expressible as facts about the list of issued requests.
-/

set_option maxRecDepth 4000

namespace OA

/-! ## Python string primitives over `List Char` -/

/-- `isHeadOf p s` is true when the character list `p` is an initial
segment of `s` (Python `s.startswith(p)` at a fixed position). -/
def isHeadOf : List Char → List Char → Bool
  | [], _ => true
  | _ :: _, [] => false
  | p :: ps, c :: cs => p == c && isHeadOf ps cs

/-- Split at the leftmost occurrence of `pat`: returns the text before the
first occurrence and, when `pat` occurs, the text after it.  This is the
building block for Python `pat in s`, `s.split(pat, 1)` and `s.split(pat)`. -/
def splitOnce (pat : List Char) : List Char → List Char × Option (List Char)
  | [] => if isHeadOf pat [] then ([], some (([] : List Char).drop pat.length)) else ([], none)
  | c :: cs =>
    if isHeadOf pat (c :: cs) then ([], some ((c :: cs).drop pat.length))
    else
      let r := splitOnce pat cs
      (c :: r.1, r.2)

/-- Python `pat in s`. -/
def pyIn (pat s : List Char) : Bool := (splitOnce pat s).2.isSome

/-- Python `s.split(pat, 1)[0]` (equivalently `s.split(pat)[0]`): the text
before the first occurrence of `pat`, or all of `s` when `pat` is absent. -/
def beforeFirst (pat s : List Char) : List Char := (splitOnce pat s).1

/-- Python `s.split(pat, 1)[1]`; only used by the code under a guard that
`pat in s`, so the absent case (Python `IndexError`) is mapped to `[]`. -/
def afterFirstD (pat s : List Char) : List Char := ((splitOnce pat s).2).getD []

/-- Python `s.split(pat)[1]`: the text between the first and the second
occurrence of `pat` (to the end of `s` when `pat` occurs just once).  Only
used by the code under a guard that `pat in s`. -/
def splitIdx1 (pat s : List Char) : List Char :=
  match (splitOnce pat s).2 with
  | some b => (splitOnce pat b).1
  | none => []

/-- Python whitespace characters, the set stripped by `str.strip()`. -/
def pyWs (c : Char) : Bool :=
  c == ' ' || c == '\t' || c == '\n' || c == '\r' || c == '\x0b' || c == '\x0c'

/-- Python `s.strip()`. -/
def pyStrip (s : List Char) : List Char :=
  ((s.dropWhile pyWs).reverse.dropWhile pyWs).reverse

/-- Python `s.strip()` on Lean strings. -/
def pyStripS (s : String) : String := String.mk (pyStrip s.toList)

/-! ## Occurrences of a pattern inside a string -/

/-- `pat` occurs in `s` starting at index `i`. -/
def occAt (pat s : List Char) (i : Nat) : Prop := isHeadOf pat (s.drop i) = true

/-- Number of indices at which `pat` occurs in `s` (for nonempty `pat` every
occurrence starts strictly before `s.length`, so the range is exhaustive). -/
def occCount (pat s : List Char) : Nat :=
  ((List.range (s.length + 1)).filter (fun i => isHeadOf pat (s.drop i))).length

/-- No occurrence of `pat` in `s` starts at an index below `n`. -/
def noOccBelow (pat s : List Char) (n : Nat) : Bool :=
  (List.range n).all (fun i => !(isHeadOf pat (s.drop i)))

theorem isHeadOf_iff : ∀ (p s : List Char), isHeadOf p s = true ↔ ∃ t, s = p ++ t
  | [], s => by simp [isHeadOf]
  | _ :: _, [] => by simp [isHeadOf]
  | p :: ps, c :: cs => by
    simp only [isHeadOf, Bool.and_eq_true, beq_iff_eq, List.cons_append, List.cons.injEq]
    constructor
    · rintro ⟨rfl, h⟩
      obtain ⟨t, ht⟩ := (isHeadOf_iff ps cs).1 h
      exact ⟨t, rfl, ht⟩
    · rintro ⟨t, h1, h2⟩
      exact ⟨h1.symm, (isHeadOf_iff ps cs).2 ⟨t, h2⟩⟩

theorem drop_append_len : ∀ (a b : List Char) (j : Nat), (a ++ b).drop (a.length + j) = b.drop j
  | [], _, _ => by simp
  | c :: a, b, j => by
    have h : (c :: a).length + j = (a.length + j) + 1 := by
      simp only [List.length_cons]; omega
    rw [h]
    simpa using drop_append_len a b j

theorem drop_len_append (a b : List Char) : (a ++ b).drop a.length = b := by
  simpa using drop_append_len a b 0

theorem drop_all : ∀ (s : List Char) (i : Nat), s.length ≤ i → s.drop i = []
  | [], _, _ => by simp
  | _ :: _, 0, h => by simp at h
  | _ :: s, i + 1, h => by
    simpa using drop_all s i (by simpa using h)

theorem occAt_shift (pat a b : List Char) (j : Nat) (h : occAt pat b j) :
    occAt pat (a ++ b) (a.length + j) := by
  unfold occAt at h ⊢
  rwa [drop_append_len]

theorem occAt_self (pat a b : List Char) : occAt pat (a ++ (pat ++ b)) a.length := by
  unfold occAt
  rw [drop_len_append]
  exact (isHeadOf_iff pat (pat ++ b)).2 ⟨b, rfl⟩

theorem occAt_cons_succ (pat : List Char) (c : Char) (s : List Char) (j : Nat) :
    occAt pat (c :: s) (j + 1) ↔ occAt pat s j := Iff.rfl

theorem occAt_lt_length (pat s : List Char) (i : Nat) (hp : pat ≠ []) (h : occAt pat s i) :
    i < s.length := by
  by_contra hlt
  have hd : s.drop i = [] := drop_all s i (by omega)
  unfold occAt at h
  rw [hd] at h
  obtain ⟨t, ht⟩ := (isHeadOf_iff pat []).1 h
  exact hp (List.append_eq_nil.mp ht.symm).1

theorem splitOnce_first : ∀ (pat a b : List Char), pat ≠ [] →
    (∀ j, occAt pat (a ++ (pat ++ b)) j → a.length ≤ j) →
    splitOnce pat (a ++ (pat ++ b)) = (a, some b)
  | pat, [], b, hp, _ => by
    obtain ⟨q, qs, rfl⟩ : ∃ q qs, pat = q :: qs := by
      cases pat with
      | nil => exact absurd rfl hp
      | cons q qs => exact ⟨q, qs, rfl⟩
    have hhead : isHeadOf (q :: qs) (q :: (qs ++ b)) = true :=
      (isHeadOf_iff _ _).2 ⟨b, by simp⟩
    have hdrop : (q :: (qs ++ b)).drop (q :: qs).length = b := by
      simpa using drop_len_append (q :: qs) b
    show splitOnce (q :: qs) (q :: (qs ++ b)) = ([], some b)
    simp only [splitOnce]
    rw [if_pos hhead, hdrop]
  | pat, c :: a, b, hp, h => by
    have h0 : ¬ occAt pat ((c :: a) ++ (pat ++ b)) 0 := by
      intro hocc
      have := h 0 hocc
      simp at this
    have hfalse : ¬ isHeadOf pat (c :: (a ++ (pat ++ b))) = true := by
      unfold occAt at h0
      simpa using h0
    have hrec : splitOnce pat (a ++ (pat ++ b)) = (a, some b) := by
      refine splitOnce_first pat a b hp fun j hj => ?_
      have h1 : occAt pat ((c :: a) ++ (pat ++ b)) (j + 1) := hj
      have h2 := h (j + 1) h1
      simp only [List.length_cons] at h2
      omega
    show splitOnce pat (c :: (a ++ (pat ++ b))) = (c :: a, some b)
    simp only [splitOnce]
    rw [if_neg hfalse]
    simp [hrec]

theorem splitOnce_of_noOcc : ∀ (pat s : List Char), (∀ j, ¬ occAt pat s j) →
    splitOnce pat s = (s, none)
  | pat, [], h => by
    have h0 := h 0
    unfold occAt at h0
    simp only [List.drop_nil] at h0
    simp only [splitOnce]
    rw [if_neg h0]
  | pat, c :: cs, h => by
    have h0 := h 0
    unfold occAt at h0
    simp only [List.drop_zero] at h0
    have hrec := splitOnce_of_noOcc pat cs (fun j hj => h (j + 1) hj)
    simp only [splitOnce]
    rw [if_neg h0]
    simp [hrec]

theorem pyIn_of_occAt : ∀ (pat s : List Char) (i : Nat), occAt pat s i →
    (splitOnce pat s).2.isSome = true
  | pat, [], i, h => by
    have hd : ([] : List Char).drop i = [] := by simp
    unfold occAt at h
    rw [hd] at h
    simp only [splitOnce]
    rw [if_pos h]
    simp
  | pat, c :: cs, i, h => by
    simp only [splitOnce]
    by_cases hh : isHeadOf pat (c :: cs) = true
    · rw [if_pos hh]; simp
    · rw [if_neg hh]
      cases i with
      | zero =>
        unfold occAt at h
        simp only [List.drop_zero] at h
        exact absurd h hh
      | succ j =>
        have := pyIn_of_occAt pat cs j h
        simpa using this

theorem noOcc_of_not_pyIn (pat s : List Char) (h : pyIn pat s = false) :
    ∀ i, ¬ occAt pat s i := by
  intro i hi
  have := pyIn_of_occAt pat s i hi
  unfold pyIn at h
  rw [this] at h
  simp at h

theorem mem_occFilter (pat s : List Char) (i : Nat) (hp : pat ≠ []) (h : occAt pat s i) :
    i ∈ (List.range (s.length + 1)).filter (fun k => isHeadOf pat (s.drop k)) := by
  rw [List.mem_filter]
  refine ⟨List.mem_range.2 ?_, h⟩
  have := occAt_lt_length pat s i hp h
  omega

theorem unique_of_occCount_one (pat s : List Char) (hp : pat ≠ []) (hc : occCount pat s = 1) :
    ∀ i j, occAt pat s i → occAt pat s j → i = j := by
  intro i j hi hj
  obtain ⟨a, ha⟩ := List.length_eq_one.1 hc
  have h1 := mem_occFilter pat s i hp hi
  have h2 := mem_occFilter pat s j hp hj
  rw [ha] at h1 h2
  simp only [List.mem_singleton] at h1 h2
  omega

theorem noOcc_of_occCount_zero (pat s : List Char) (hp : pat ≠ []) (hc : occCount pat s = 0) :
    ∀ i, ¬ occAt pat s i := by
  intro i hi
  have hmem := mem_occFilter pat s i hp hi
  unfold occCount at hc
  rw [List.length_eq_zero.1 hc] at hmem
  simp at hmem

theorem le_of_noOccBelow (pat s : List Char) (n : Nat) (h : noOccBelow pat s n = true) :
    ∀ j, occAt pat s j → n ≤ j := by
  intro j hj
  by_contra hlt
  have hjn : j ∈ List.range n := List.mem_range.2 (by omega)
  have := (List.all_eq_true.1 h) j hjn
  unfold occAt at hj
  simp only [Bool.not_eq_true'] at this
  rw [hj] at this
  simp at this

theorem isHeadOf_of_append : ∀ (p x w : List Char), isHeadOf p (x ++ w) = true →
    p.length ≤ x.length → isHeadOf p x = true
  | [], _, _, _, _ => rfl
  | _ :: _, [], _, _, hl => by simp at hl
  | a :: ps, b :: xs, w, h, hl => by
    simp only [List.cons_append, isHeadOf, Bool.and_eq_true] at h ⊢
    refine ⟨h.1, isHeadOf_of_append ps xs w h.2 ?_⟩
    simp only [List.length_cons] at hl
    omega

theorem drop_append_le : ∀ (a b : List Char) (j : Nat), j ≤ a.length →
    (a ++ b).drop j = a.drop j ++ b
  | _, _, 0, _ => by simp
  | [], _, j + 1, h => by simp at h
  | c :: a, b, j + 1, h => by
    simpa using drop_append_le a b j (by simpa using h)

theorem occAt_of_append_left (pat a b : List Char) (j : Nat)
    (h : occAt pat (a ++ b) j) (hl : j + pat.length ≤ a.length) :
    occAt pat a j := by
  unfold occAt at h ⊢
  rw [drop_append_le a b j (by omega)] at h
  refine isHeadOf_of_append pat (a.drop j) b h ?_
  rw [List.length_drop]
  omega

/-- From a unique occurrence witnessed by a decomposition, `splitOnce`
recovers exactly that decomposition. -/
theorem splitOnce_of_unique (pat a b : List Char) (hp : pat ≠ [])
    (hu : ∀ i j, occAt pat (a ++ (pat ++ b)) i → occAt pat (a ++ (pat ++ b)) j → i = j) :
    splitOnce pat (a ++ (pat ++ b)) = (a, some b) := by
  refine splitOnce_first pat a b hp ?_
  intro j hj
  have := hu j a.length hj (occAt_self pat a b)
  omega

/-! ## The `generate_brief` response parser (`app.py` lines 649-688)

The route body builds a prompt, calls the model once, and then slices the
response text with the chain of `split` / `in` / `strip` calls reproduced
verbatim below.  The `try/except` around the brief extraction can never
fire: every index access is guarded by the preceding membership test, so
the model omits it. -/

/-- Result record of the parsing phase of `generate_brief`: the `brief`
plus the five named sections returned by the route. -/
structure ParsedBrief where
  brief : List Char
  decisions_required : List Char
  drafts : List Char
  followups : List Char
  risks : List Char
  next_actions : List Char
  deriving Repr, DecidableEq

/-- Lines 662-669: brief extraction.
`if "BRIEF" in response_text and "DECISIONS_REQUIRED" in response_text:`
then `split("BRIEF", 1)[1]`, conditionally `split(":", 1)[1]` when a colon
occurs before the first `"DECISIONS_REQUIRED"` of the remainder, then
`split("DECISIONS_REQUIRED", 1)[0].strip()`; otherwise the raw text. -/
def briefFromResponse (response_text : List Char) : List Char :=
  if pyIn "BRIEF".toList response_text && pyIn "DECISIONS_REQUIRED".toList response_text then
    let t := afterFirstD "BRIEF".toList response_text
    let t2 :=
      if pyIn ":".toList (beforeFirst "DECISIONS_REQUIRED".toList t) then
        afterFirstD ":".toList t
      else t
    pyStrip (beforeFirst "DECISIONS_REQUIRED".toList t2)
  else response_text

/-- Lines 670-677: `response_text.split(m)[1].split(nxt)[0].strip()` when
marker `m` is present, else the empty string. -/
def sectionBetween (m nxt s : List Char) : List Char :=
  if pyIn m s then pyStrip (beforeFirst nxt (splitIdx1 m s)) else []

/-- Lines 678-679: `response_text.split(m)[1].strip()` when marker `m` is
present, else the empty string (the NEXT_ACTIONS section). -/
def sectionTail (m s : List Char) : List Char :=
  if pyIn m s then pyStrip (splitIdx1 m s) else []

/-- The complete parsing phase of `generate_brief` (lines 650-679). -/
def parseBriefResponse (response_text : List Char) : ParsedBrief :=
  { brief := briefFromResponse response_text
  , decisions_required :=
      sectionBetween "DECISIONS_REQUIRED:".toList "DRAFTS:".toList response_text
  , drafts := sectionBetween "DRAFTS:".toList "FOLLOWUPS:".toList response_text
  , followups := sectionBetween "FOLLOWUPS:".toList "RISKS:".toList response_text
  , risks := sectionBetween "RISKS:".toList "NEXT_ACTIONS:".toList response_text
  , next_actions := sectionTail "NEXT_ACTIONS:".toList response_text }

/-! ## Trailing-hours window clamping (C3)

`get_events` (lines 238-242) and `inbox_snapshot` (lines 279-283) both run
`hours = max(1, min(168, int(hours_param)))` with `hours = 24` on
`ValueError`.  The argument is the result of Python `int(hours_param)`:
`some n` on success, `none` when the parameter is malformed. -/

/-- Effective hour count in `get_events` (lines 238-242). -/
def effective_hours_events : Option Int → Int
  | some n => max 1 (min 168 n)
  | none => 24

/-- Effective hour count in `inbox_snapshot` (lines 279-283). -/
def effective_hours_snapshot : Option Int → Int
  | some n => max 1 (min 168 n)
  | none => 24

/-- Modelled from the spec words: the integer value "clamped to the
interval [1, 168]"; compared against the code-derived definitions. -/
def clamp_1_168_spec (n : Int) : Int :=
  if n < 1 then 1 else if 168 < n then 168 else n

/-! ## The shared Graph API primitive (`_make_graph_api_call`, lines 217-230)

The session token is an `Option GraphToken`; the outbound HTTP layer is an
explicit argument `net`.  The second component of the result collects the
URLs actually requested, so "no network call" is the statement that this
list is empty. -/

structure GraphToken where
  access_token : String
  deriving Repr, DecidableEq

structure HttpResponse where
  status_code : Nat
  text : String
  deriving Repr, DecidableEq

def GRAPH_API_ENDPOINT : String := "https://graph.microsoft.com/v1.0"

/-- `_make_graph_api_call(endpoint)`: the `(data, status, error)` triple of
the source plus the list of outbound requests issued. -/
def make_graph_api_call (token : Option GraphToken) (net : String → HttpResponse)
    (endpoint : String) : (Option String × Nat × Option String) × List String :=
  match token with
  | none => ((none, 401, some "User not authenticated."), [])
  | some _ =>
    let url := if endpoint.startsWith "http" then endpoint else GRAPH_API_ENDPOINT ++ endpoint
    let response := net url
    if response.status_code = 200 then ((some response.text, 200, none), [url])
    else ((none, response.status_code, some response.text), [url])

/-- Query string built by `get_events` (line 256); the URL-encoded window
bounds are passed in already encoded. -/
def eventsQuery (start_q end_q : String) : String :=
  "/me/calendarView?startDateTime=" ++ start_q ++ "&endDateTime=" ++ end_q ++
    "&$select=subject,location,start,end&$top=50"

/-- Query string built by `get_mails` (line 264). -/
def mailsQuery : String :=
  "/me/messages?$top=10&$select=subject,from,receivedDateTime,webLink"

/-- Query string built by `inbox_snapshot` (line 293); the encoded filter
expression is passed in already encoded. -/
def snapshotQuery (filter_q : String) : String :=
  "/me/messages?$top=50&$select=id,subject,from,receivedDateTime,bodyPreview&$filter=" ++
    filter_q ++ "&$orderby=receivedDateTime desc"

/-- Endpoint built by `get_message_by_id` (line 363); the encoded message
id is passed in already encoded. -/
def messageQuery (msg_id_q : String) : String :=
  "/me/messages/" ++ msg_id_q ++ "?$select=subject,from,receivedDateTime,body,webLink"

/-! ## Record store models

Rows carry the semantic columns; the DB-assigned surrogate `id` and
timestamp columns play no role in any claim and are omitted.  Tables are
lists in insertion order (SQLite `query.all()` order for these tables). -/

structure Priority where
  text : String
  deriving Repr, DecidableEq

structure Project where
  name : String
  health : Int
  risk : String
  action : String
  deriving Repr, DecidableEq

structure Meeting where
  time : String
  title : String
  location : String
  brief : String
  critical : Bool
  date : String
  deriving Repr, DecidableEq

structure Protocol where
  gov : Bool
  intl : Bool
  notes : String
  deriving Repr, DecidableEq

structure TimeSplit where
  bd : Int
  internal : Int
  strategy : Int
  admin : Int
  deriving Repr, DecidableEq

structure DailyBrief where
  date : String
  brief_content : String
  decisions_required : Option String
  drafts : Option String
  followups : Option String
  risks : Option String
  next_actions : Option String
  proton_update : Option String
  deriving Repr, DecidableEq

/-! ## `/api/priorities` POST (lines 375-382)

`data` is the result of `request.get_json()` (`none` models a null/absent
parsed body); `data.get('text')` is falsy when missing or empty. -/

structure PriorityPayload where
  text : Option String
  deriving Repr, DecidableEq

/-- POST branch of `handle_priorities`: returns (status, body-or-error)
and the table after the request. -/
def handle_priorities_post (data : Option PriorityPayload) (store : List Priority) :
    (Nat × String) × List Priority :=
  match data with
  | none => ((400, "Priority text is required"), store)
  | some d =>
    match d.text with
    | none => ((400, "Priority text is required"), store)
    | some t =>
      if t = "" then ((400, "Priority text is required"), store)
      else ((201, t), store ++ [{ text := t }])

/-! ## `/api/projects` (lines 391-415) -/

/-- The three rows seeded by `handle_projects` on an empty table
(lines 396-400). -/
def seed_projects : List Project :=
  [ { name := "PPL 5th Evaporator", health := 62, risk := "Delay: condenser delivery"
    , action := "Escalate vendor; recover 7 days via parallel E&I" }
  , { name := "Alkali Scrubber SAP-A/B", health := 78, risk := "None major"
    , action := "Lock FAT date; update drawings rev-C" }
  , { name := "TG-4 (23 MW)", health := 54, risk := "Civils lagging 2 weeks"
    , action := "Add 2nd crew; weekend shift" } ]

/-- GET branch of `handle_projects` (lines 393-404): returns the response
list and the table after the request. -/
def handle_projects_get (store : List Project) : List Project × List Project :=
  if store.isEmpty then (seed_projects, seed_projects) else (store, store)

/-- POST branch of `handle_projects` (lines 406-415).  The request body is
never read by the source, so it is an arbitrary unused argument here. -/
def handle_projects_post (_body : Option String) (store : List Project) :
    Project × List Project :=
  let new_project : Project :=
    { name := "New Project", health := 75, risk := "N/A", action := "Define next steps" }
  (new_project, store ++ [new_project])

/-! ## PUT updaters (C10)

Each PUT handler fetches the row by id (404 when absent) and then assigns
`data.get(key, current_value)` per field; the row-level update functions
below are those assignment blocks.  A payload field is `none` exactly when
the key is absent from the JSON body.  Dates are carried as their parsed
values. -/

structure ProjectPayload where
  name : Option String
  health : Option Int
  risk : Option String
  action : Option String
  deriving Repr, DecidableEq

/-- PUT branch of `handle_project` (lines 421-428). -/
def handle_project_put (project : Project) (data : ProjectPayload) : Project :=
  { project with
    name := data.name.getD project.name
    health := data.health.getD project.health
    risk := data.risk.getD project.risk
    action := data.action.getD project.action }

structure MeetingPayload where
  time : Option String
  title : Option String
  location : Option String
  brief : Option String
  critical : Option Bool
  date : Option String
  deriving Repr, DecidableEq

/-- PUT branch of `handle_meeting` (lines 464-474); the date is assigned
only when the `date` key is present (`if 'date' in data`). -/
def handle_meeting_put (meeting : Meeting) (data : MeetingPayload) : Meeting :=
  { meeting with
    time := data.time.getD meeting.time
    title := data.title.getD meeting.title
    location := data.location.getD meeting.location
    brief := data.brief.getD meeting.brief
    critical := data.critical.getD meeting.critical
    date := data.date.getD meeting.date }

structure ProtocolPayload where
  gov : Option Bool
  intl : Option Bool
  notes : Option String
  deriving Repr, DecidableEq

/-- PUT branch of `handle_protocol` (lines 493-504), update of the
existing singleton row. -/
def handle_protocol_put (protocol : Protocol) (data : ProtocolPayload) : Protocol :=
  { protocol with
    gov := data.gov.getD protocol.gov
    intl := data.intl.getD protocol.intl
    notes := data.notes.getD protocol.notes }

structure TimeSplitPayload where
  bd : Option Int
  internal : Option Int
  strategy : Option Int
  admin : Option Int
  deriving Repr, DecidableEq

/-- PUT branch of `handle_time_split` (lines 518-530), update of the
existing singleton row (payload keys BD/Internal/Strategy/Admin). -/
def handle_time_split_put (time_split : TimeSplit) (data : TimeSplitPayload) : TimeSplit :=
  { time_split with
    bd := data.bd.getD time_split.bd
    internal := data.internal.getD time_split.internal
    strategy := data.strategy.getD time_split.strategy
    admin := data.admin.getD time_split.admin }

/-! ## `/api/daily-briefs` POST (lines 542-575) -/

structure DailyBriefPayload where
  date : Option String
  brief_content : Option String
  decisions_required : Option String
  drafts : Option String
  followups : Option String
  risks : Option String
  next_actions : Option String
  proton_update : Option String
  deriving Repr, DecidableEq

/-- Lines 553-559: overwrite of every content field of the existing row
(`data.get(...)` with no default maps absent keys to `None`). -/
def overwriteBrief (row : DailyBrief) (data : DailyBriefPayload) (bc : String) : DailyBrief :=
  { row with
    brief_content := bc
    decisions_required := data.decisions_required
    drafts := data.drafts
    followups := data.followups
    risks := data.risks
    next_actions := data.next_actions
    proton_update := data.proton_update }

/-- `DailyBrief.query.filter_by(date=...).first()` followed by in-place
mutation: rewrite the first row with the given date, leave the rest. -/
def updateFirstBrief (rows : List DailyBrief) (date_obj : String)
    (data : DailyBriefPayload) (bc : String) : List DailyBrief :=
  match rows with
  | [] => []
  | r :: rs =>
    if r.date == date_obj then overwriteBrief r data bc :: rs
    else r :: updateFirstBrief rs date_obj data bc

/-- POST branch of `handle_daily_briefs` (lines 542-575).  `today` is the
current date used as the default; `data` is the parsed JSON body; dates
are carried as their parsed (`fromisoformat(...).date()`) values. -/
def handle_daily_briefs_post (today : String) (data : Option DailyBriefPayload)
    (rows : List DailyBrief) : Nat × List DailyBrief :=
  match data with
  | none => (400, rows)
  | some d =>
    match d.brief_content with
    | none => (400, rows)
    | some bc =>
      if bc = "" then (400, rows)
      else
        let date_obj := d.date.getD today
        if rows.any (fun r => r.date == date_obj) then
          (201, updateFirstBrief rows date_obj d bc)
        else
          (201, rows ++ [{ date := date_obj, brief_content := bc
                         , decisions_required := d.decisions_required
                         , drafts := d.drafts, followups := d.followups
                         , risks := d.risks, next_actions := d.next_actions
                         , proton_update := d.proton_update }])

/-! ## `/api/inbox/snapshot` per-message loop (lines 298-352)

The Graph payload rows are `InboxMessage`; `normTime` is the
datetime-normalisation of lines 311-319 (`none` models the `except`
branch, i.e. a parse failure, in which case the raw string is used);
`summarize` is the per-mail model call (`none` models the `except` branch
of lines 329-351; an empty reply falls back like a failure does). -/

structure InboxMessage where
  id : Option String
  subject : Option String
  bodyPreview : Option String
  senderName : Option String
  receivedDateTime : Option String
  deriving Repr, DecidableEq

structure SnapshotItem where
  id : String
  subject : String
  sender : String
  received : String
  summary : String
  deriving Repr, DecidableEq

/-- The per-mail prompt of lines 323-328. -/
def perMailPrompt (subject preview : String) : String :=
  "Summarize this email in one short line (<=20 words). " ++
  "Output only the summary sentence, no prefixes or labels.\n\n" ++
  "Subject: " ++ subject ++ "\n" ++
  "BodyPreview: " ++ preview

/-- One iteration of the message loop: `none` when the message is skipped
(empty stripped subject), otherwise the digest line and the item record
appended by the source. -/
def snapshotStep (normTime : String → Option String) (summarize : String → Option String)
    (m : InboxMessage) : Option (String × SnapshotItem) :=
  let subject := pyStripS (m.subject.getD "")
  let preview := (pyStripS (m.bodyPreview.getD "")).replace "\n" " "
  let sender_name := pyStripS (m.senderName.getD "")
  let msg_id := pyStripS (m.id.getD "")
  let when_raw := pyStripS (m.receivedDateTime.getD "")
  let when_str := (normTime when_raw).getD when_raw
  if subject = "" then none
  else
    let fallback := pyStripS (preview.take 160)
    let one_line :=
      match summarize (perMailPrompt subject preview) with
      | some t => let u := pyStripS t; if u = "" then fallback else u
      | none => fallback
    some (subject ++ " — " ++ one_line ++ " (" ++ sender_name ++ ", " ++ when_str ++ ")",
          { id := msg_id, subject := subject, sender := sender_name
          , received := when_str, summary := one_line })

/-- The message loop of lines 302-351: the digest lines and items in
provider-returned order. -/
def snapshotLoop (normTime : String → Option String) (summarize : String → Option String) :
    List InboxMessage → List String × List SnapshotItem
  | [] => ([], [])
  | m :: ms =>
    let rest := snapshotLoop normTime summarize ms
    match snapshotStep normTime summarize m with
    | none => rest
    | some (line, item) => (line :: rest.1, item :: rest.2)

/-- The successful-path response of `inbox_snapshot` (line 352): the
newline-joined digest plus the items. -/
def inbox_snapshot_response (normTime : String → Option String)
    (summarize : String → Option String) (messages : List InboxMessage) :
    String × List SnapshotItem :=
  let r := snapshotLoop normTime summarize messages
  (String.intercalate "\n" r.1, r.2)

/-! ## Theorems -/

/-- C3: for every trailing-hours window request to `/api/outlook/events` or
`/api/inbox/snapshot` carrying an `hours` parameter, the effective hour
count is the parameter's integer value clamped to [1, 168], and a
malformed (non-integer) value yields exactly 24; both endpoints agree. -/
theorem hours_clamp_c3 :
    (∀ n : Int, effective_hours_events (some n) = clamp_1_168_spec n ∧
      effective_hours_snapshot (some n) = clamp_1_168_spec n ∧
      1 ≤ effective_hours_events (some n) ∧ effective_hours_events (some n) ≤ 168) ∧
    effective_hours_events none = 24 ∧ effective_hours_snapshot none = 24 ∧
    ∀ p : Option Int, effective_hours_events p = effective_hours_snapshot p := by
  refine ⟨fun n => ?_, rfl, rfl, fun p => by cases p <;> rfl⟩
  simp only [effective_hours_events, effective_hours_snapshot, clamp_1_168_spec,
    Int.max_def, Int.min_def]
  split_ifs <;> omega

/-- C5: with no cached token in the session, the shared Graph API
primitive returns `(None, 401, "User not authenticated.")` and issues no
outbound request, independently of the network, for an arbitrary endpoint
and in particular for the four proxy operations (events, mail list,
windowed mail, single message). -/
theorem graph_api_no_token_c5 :
    ∀ (net net2 : String → HttpResponse) (a b f m e : String),
      make_graph_api_call none net e = ((none, 401, some "User not authenticated."), []) ∧
      make_graph_api_call none net (eventsQuery a b) =
        ((none, 401, some "User not authenticated."), []) ∧
      make_graph_api_call none net mailsQuery =
        ((none, 401, some "User not authenticated."), []) ∧
      make_graph_api_call none net (snapshotQuery f) =
        ((none, 401, some "User not authenticated."), []) ∧
      make_graph_api_call none net (messageQuery m) =
        ((none, 401, some "User not authenticated."), []) ∧
      make_graph_api_call none net e = make_graph_api_call none net2 e :=
  fun _ _ _ _ _ _ _ => ⟨rfl, rfl, rfl, rfl, rfl, rfl⟩

/-- C9: `POST /api/projects` never reads the request body: for any two
bodies and stores the created project is the fixed record
(name "New Project", health 75, risk "N/A", action "Define next steps"),
identical across requests, and it is appended to the store. -/
theorem projects_post_ignores_body_c9 :
    ∀ (b1 b2 : Option String) (s1 s2 : List Project),
      (handle_projects_post b1 s1).1 =
        { name := "New Project", health := 75, risk := "N/A", action := "Define next steps" } ∧
      (handle_projects_post b1 s1).1 = (handle_projects_post b2 s2).1 ∧
      (handle_projects_post b1 s1).2 = s1 ++ [(handle_projects_post b1 s1).1] :=
  fun _ _ _ _ => ⟨rfl, rfl, rfl⟩

/-- C6: `GET /api/projects` on an empty store returns exactly the three
seeded projects with the fixed names and health values (62, 78, 54),
persists them, and any subsequent GET on a nonempty store returns the
stored rows unchanged — in particular the same three seeds again. -/
theorem projects_seed_c6 :
    handle_projects_get [] = (seed_projects, seed_projects) ∧
    (handle_projects_get []).1.map Project.name =
      ["PPL 5th Evaporator", "Alkali Scrubber SAP-A/B", "TG-4 (23 MW)"] ∧
    (handle_projects_get []).1.map Project.health = [62, 78, 54] ∧
    (handle_projects_get []).1.length = 3 ∧
    handle_projects_get (handle_projects_get []).2 = (seed_projects, seed_projects) ∧
    ∀ s : List Project, s ≠ [] → handle_projects_get s = (s, s) := by
  refine ⟨rfl, by decide, by decide, rfl, rfl, fun s hs => ?_⟩
  match s with
  | [] => exact absurd rfl hs
  | c :: cs => rfl

/-- C6 witness: the second GET, on the freshly seeded store. -/
theorem projects_seed_c6_witness :
    handle_projects_get seed_projects = (seed_projects, seed_projects) :=
  projects_seed_c6.2.2.2.2.2 seed_projects (by decide)

/-- C7: a `POST /api/priorities` whose parsed body is absent or lacks a
non-empty `text` field yields the 400 field-specific error and leaves the
stored priorities unchanged. -/
theorem priorities_post_missing_text_c7 (data : Option PriorityPayload)
    (store : List Priority)
    (h : data = none ∨ ∃ d, data = some d ∧ (d.text = none ∨ d.text = some "")) :
    handle_priorities_post data store = ((400, "Priority text is required"), store) := by
  rcases h with rfl | ⟨d, rfl, hd⟩
  · rfl
  · rcases hd with h1 | h2
    · simp [handle_priorities_post, h1]
    · simp [handle_priorities_post, h2]

/-- C7 witness: a null body against a nonempty store. -/
theorem priorities_post_missing_text_c7_witness :
    handle_priorities_post none [{ text := "t" }] =
      ((400, "Priority text is required"), [{ text := "t" }]) :=
  priorities_post_missing_text_c7 none [{ text := "t" }] (Or.inl rfl)

/-- C10: in each of the four PUT updaters (Project, Meeting, Protocol,
TimeSplit) a field absent from the payload retains its previous value and
a present field is set to the payload value; by contrast, the DailyBrief
overwrite maps an absent field to `None`. -/
theorem put_preserves_absent_fields_c10 :
    (∀ (p : Project) (d : ProjectPayload),
      (d.name = none → (handle_project_put p d).name = p.name) ∧
      (∀ v, d.name = some v → (handle_project_put p d).name = v) ∧
      (d.health = none → (handle_project_put p d).health = p.health) ∧
      (∀ v, d.health = some v → (handle_project_put p d).health = v) ∧
      (d.risk = none → (handle_project_put p d).risk = p.risk) ∧
      (∀ v, d.risk = some v → (handle_project_put p d).risk = v) ∧
      (d.action = none → (handle_project_put p d).action = p.action) ∧
      (∀ v, d.action = some v → (handle_project_put p d).action = v)) ∧
    (∀ (m : Meeting) (d : MeetingPayload),
      (d.time = none → (handle_meeting_put m d).time = m.time) ∧
      (∀ v, d.time = some v → (handle_meeting_put m d).time = v) ∧
      (d.title = none → (handle_meeting_put m d).title = m.title) ∧
      (∀ v, d.title = some v → (handle_meeting_put m d).title = v) ∧
      (d.location = none → (handle_meeting_put m d).location = m.location) ∧
      (∀ v, d.location = some v → (handle_meeting_put m d).location = v) ∧
      (d.brief = none → (handle_meeting_put m d).brief = m.brief) ∧
      (∀ v, d.brief = some v → (handle_meeting_put m d).brief = v) ∧
      (d.critical = none → (handle_meeting_put m d).critical = m.critical) ∧
      (∀ v, d.critical = some v → (handle_meeting_put m d).critical = v) ∧
      (d.date = none → (handle_meeting_put m d).date = m.date) ∧
      (∀ v, d.date = some v → (handle_meeting_put m d).date = v)) ∧
    (∀ (pr : Protocol) (d : ProtocolPayload),
      (d.gov = none → (handle_protocol_put pr d).gov = pr.gov) ∧
      (∀ v, d.gov = some v → (handle_protocol_put pr d).gov = v) ∧
      (d.intl = none → (handle_protocol_put pr d).intl = pr.intl) ∧
      (∀ v, d.intl = some v → (handle_protocol_put pr d).intl = v) ∧
      (d.notes = none → (handle_protocol_put pr d).notes = pr.notes) ∧
      (∀ v, d.notes = some v → (handle_protocol_put pr d).notes = v)) ∧
    (∀ (t : TimeSplit) (d : TimeSplitPayload),
      (d.bd = none → (handle_time_split_put t d).bd = t.bd) ∧
      (∀ v, d.bd = some v → (handle_time_split_put t d).bd = v) ∧
      (d.internal = none → (handle_time_split_put t d).internal = t.internal) ∧
      (∀ v, d.internal = some v → (handle_time_split_put t d).internal = v) ∧
      (d.strategy = none → (handle_time_split_put t d).strategy = t.strategy) ∧
      (∀ v, d.strategy = some v → (handle_time_split_put t d).strategy = v) ∧
      (d.admin = none → (handle_time_split_put t d).admin = t.admin) ∧
      (∀ v, d.admin = some v → (handle_time_split_put t d).admin = v)) ∧
    (∀ (r : DailyBrief) (d : DailyBriefPayload) (bc : String),
      d.decisions_required = none → (overwriteBrief r d bc).decisions_required = none) := by
  refine ⟨fun p d => ?_, fun m d => ?_, fun pr d => ?_, fun t d => ?_,
    fun r d bc h => by simp [overwriteBrief, h]⟩
  · refine ⟨fun h => ?_, fun v h => ?_, fun h => ?_, fun v h => ?_, fun h => ?_,
      fun v h => ?_, fun h => ?_, fun v h => ?_⟩ <;> simp [handle_project_put, h]
  · refine ⟨fun h => ?_, fun v h => ?_, fun h => ?_, fun v h => ?_, fun h => ?_,
      fun v h => ?_, fun h => ?_, fun v h => ?_, fun h => ?_, fun v h => ?_,
      fun h => ?_, fun v h => ?_⟩ <;> simp [handle_meeting_put, h]
  · refine ⟨fun h => ?_, fun v h => ?_, fun h => ?_, fun v h => ?_, fun h => ?_,
      fun v h => ?_⟩ <;> simp [handle_protocol_put, h]
  · refine ⟨fun h => ?_, fun v h => ?_, fun h => ?_, fun v h => ?_, fun h => ?_,
      fun v h => ?_, fun h => ?_, fun v h => ?_⟩ <;> simp [handle_time_split_put, h]

/-- C10 witness: one absent-field preservation per entity, plus a present
field being set and the DailyBrief contrast, at concrete records. -/
theorem put_preserves_absent_fields_c10_witness :
    (handle_project_put { name := "A", health := 1, risk := "r", action := "x" }
      { name := none, health := some 5, risk := none, action := none }).name = "A" ∧
    (handle_project_put { name := "A", health := 1, risk := "r", action := "x" }
      { name := none, health := some 5, risk := none, action := none }).health = 5 ∧
    (handle_meeting_put
      { time := "09:00", title := "T", location := "VC", brief := "", critical := false
      , date := "2024-01-01" }
      { time := none, title := none, location := none, brief := none, critical := none
      , date := none }).date = "2024-01-01" ∧
    (handle_protocol_put { gov := true, intl := false, notes := "n" }
      { gov := none, intl := none, notes := none }).gov = true ∧
    (handle_time_split_put { bd := 40, internal := 35, strategy := 15, admin := 10 }
      { bd := none, internal := none, strategy := none, admin := none }).bd = 40 ∧
    (overwriteBrief
      { date := "2024-01-01", brief_content := "old", decisions_required := some "x"
      , drafts := none, followups := none, risks := none, next_actions := none
      , proton_update := none }
      { date := none, brief_content := some "new", decisions_required := none
      , drafts := none, followups := none, risks := none, next_actions := none
      , proton_update := none } "new").decisions_required = none := by
  have h := put_preserves_absent_fields_c10
  exact ⟨(h.1 _ _).1 rfl, (h.1 _ _).2.2.2.1 5 rfl, (h.2.1 _ _).2.2.2.2.2.2.2.2.2.2.1 rfl,
    (h.2.2.1 _ _).1 rfl, (h.2.2.2.1 _ _).1 rfl, h.2.2.2.2 _ _ "new" rfl⟩

theorem updateFirstBrief_length (rows : List DailyBrief) (dt : String)
    (d : DailyBriefPayload) (bc : String) :
    (updateFirstBrief rows dt d bc).length = rows.length := by
  induction rows with
  | nil => rfl
  | cons r rs ih =>
    simp only [updateFirstBrief]
    split <;> simp [ih]

theorem updateFirstBrief_countP (rows : List DailyBrief) (dt : String)
    (d : DailyBriefPayload) (bc : String) :
    (updateFirstBrief rows dt d bc).countP (fun r => r.date == dt) =
      rows.countP (fun r => r.date == dt) := by
  induction rows with
  | nil => rfl
  | cons r rs ih =>
    simp only [updateFirstBrief]
    split
    · simp [List.countP_cons, overwriteBrief]
    · simp [List.countP_cons, ih]

theorem updateFirstBrief_find (rows : List DailyBrief) (dt : String)
    (d : DailyBriefPayload) (bc : String)
    (hex : rows.any (fun r => r.date == dt) = true) :
    ∃ r', (updateFirstBrief rows dt d bc).find? (fun r => r.date == dt) = some r' ∧
      r'.date = dt ∧ r'.brief_content = bc ∧
      r'.decisions_required = d.decisions_required ∧ r'.drafts = d.drafts ∧
      r'.followups = d.followups ∧ r'.risks = d.risks ∧
      r'.next_actions = d.next_actions ∧ r'.proton_update = d.proton_update := by
  induction rows with
  | nil => simp at hex
  | cons r rs ih =>
    by_cases h : (r.date == dt) = true
    · refine ⟨overwriteBrief r d bc, ?_, ?_, rfl, rfl, rfl, rfl, rfl, rfl, rfl⟩
      · simp only [updateFirstBrief, if_pos h]
        have hdate : (overwriteBrief r d bc).date = r.date := rfl
        rw [List.find?_cons_of_pos]
        rw [hdate]
        exact h
      · have : r.date = dt := by simpa using h
        simpa [overwriteBrief] using this
    · have hex' : rs.any (fun r => r.date == dt) = true := by
        simp only [List.any_cons, Bool.or_eq_true] at hex
        rcases hex with h1 | h2
        · exact absurd h1 h
        · exact h2
      obtain ⟨r', hfind, hrest⟩ := ih hex'
      refine ⟨r', ?_, hrest⟩
      simp only [updateFirstBrief, if_neg h]
      rw [List.find?_cons_of_neg]
      · exact hfind
      · simpa using h

/-- C4: posting a DailyBrief with a non-empty `brief_content` for a date
that already has a row overwrites every content field of the first such
row with the payload values — fields absent from the payload become
`None`, not their previous values — creates no second row for that date,
and answers 201. -/
theorem daily_brief_upsert_c4 (today : String) (d : DailyBriefPayload) (bc : String)
    (rows : List DailyBrief)
    (hbc : d.brief_content = some bc) (hne : bc ≠ "")
    (hex : rows.any (fun r => r.date == d.date.getD today) = true) :
    (handle_daily_briefs_post today (some d) rows).1 = 201 ∧
    (handle_daily_briefs_post today (some d) rows).2.length = rows.length ∧
    (handle_daily_briefs_post today (some d) rows).2.countP
        (fun r => r.date == d.date.getD today) =
      rows.countP (fun r => r.date == d.date.getD today) ∧
    ∃ r', (handle_daily_briefs_post today (some d) rows).2.find?
        (fun r => r.date == d.date.getD today) = some r' ∧
      r'.date = d.date.getD today ∧ r'.brief_content = bc ∧
      r'.decisions_required = d.decisions_required ∧ r'.drafts = d.drafts ∧
      r'.followups = d.followups ∧ r'.risks = d.risks ∧
      r'.next_actions = d.next_actions ∧ r'.proton_update = d.proton_update := by
  have hres : handle_daily_briefs_post today (some d) rows =
      (201, updateFirstBrief rows (d.date.getD today) d bc) := by
    simp only [handle_daily_briefs_post, hbc]
    rw [if_neg hne, if_pos hex]
  rw [hres]
  exact ⟨rfl, updateFirstBrief_length rows _ d bc, updateFirstBrief_countP rows _ d bc,
    updateFirstBrief_find rows _ d bc hex⟩

/-- C4 witness: a second POST for a date that already has a brief, with
every optional field absent from the payload. -/
theorem daily_brief_upsert_c4_witness :
    (handle_daily_briefs_post "2024-01-01"
      (some { date := none, brief_content := some "B", decisions_required := none
            , drafts := none, followups := none, risks := none, next_actions := none
            , proton_update := none })
      [{ date := "2024-01-01", brief_content := "old", decisions_required := some "x"
       , drafts := some "y", followups := none, risks := none, next_actions := none
       , proton_update := none }]).1 = 201 :=
  (daily_brief_upsert_c4 "2024-01-01"
    { date := none, brief_content := some "B", decisions_required := none
    , drafts := none, followups := none, risks := none, next_actions := none
    , proton_update := none } "B"
    [{ date := "2024-01-01", brief_content := "old", decisions_required := some "x"
     , drafts := some "y", followups := none, risks := none, next_actions := none
     , proton_update := none }] rfl (by decide) (by decide)).1

theorem snapshotStep_eq_none_iff (normTime summarize : String → Option String)
    (m : InboxMessage) :
    snapshotStep normTime summarize m = none ↔ pyStripS (m.subject.getD "") = "" := by
  simp only [snapshotStep]
  split
  · rename_i h; simpa using h
  · rename_i h; simpa using h

/-- C8 (amended): the snapshot outputs are exactly one digest line and one
item per message whose subject is non-empty after trimming, in
provider-returned order; a message whose trimmed subject is empty is
excluded from both, and the digest is the newline-join of the lines. -/
theorem inbox_snapshot_skips_empty_subjects_c8 :
    ∀ (normTime summarize : String → Option String) (messages : List InboxMessage),
      (∀ m, snapshotStep normTime summarize m = none ↔ pyStripS (m.subject.getD "") = "") ∧
      snapshotLoop normTime summarize messages =
        (((messages.filter (fun m => !(pyStripS (m.subject.getD "") == ""))).map
            (fun m => (snapshotStep normTime summarize m).getD
              ("", { id := "", subject := "", sender := "", received := ""
                   , summary := "" }))).map Prod.fst,
         ((messages.filter (fun m => !(pyStripS (m.subject.getD "") == ""))).map
            (fun m => (snapshotStep normTime summarize m).getD
              ("", { id := "", subject := "", sender := "", received := ""
                   , summary := "" }))).map Prod.snd) ∧
      (inbox_snapshot_response normTime summarize messages).1 =
        String.intercalate "\n" (snapshotLoop normTime summarize messages).1 ∧
      (inbox_snapshot_response normTime summarize messages).2 =
        (snapshotLoop normTime summarize messages).2 := by
  intro normTime summarize messages
  refine ⟨snapshotStep_eq_none_iff normTime summarize, ?_, rfl, rfl⟩
  induction messages with
  | nil => rfl
  | cons m ms ih =>
    by_cases h : pyStripS (m.subject.getD "") = ""
    · have hnone : snapshotStep normTime summarize m = none :=
        (snapshotStep_eq_none_iff normTime summarize m).2 h
      simp only [snapshotLoop, hnone, List.filter_cons, h]
      simpa using ih
    · have hsome : snapshotStep normTime summarize m ≠ none := by
        intro hc
        exact h ((snapshotStep_eq_none_iff normTime summarize m).1 hc)
      obtain ⟨pair, hpair⟩ := Option.ne_none_iff_exists'.1 hsome
      have hfil : (pyStripS (m.subject.getD "") == "") = false := by
        simpa using h
      simp [snapshotLoop, hpair, ih, List.filter_cons, hfil]

/-- C8 counterexample to the claim as stated: a message whose subject is
the non-empty string " " contributes no entry at all (the source strips
the subject before testing it), so "every message with a non-empty
subject contributes exactly one entry to each" fails. -/
theorem inbox_snapshot_c8_counterexample :
    (some " " : Option String) ≠ none ∧ (" " : String) ≠ "" ∧
    inbox_snapshot_response (fun _ => none) (fun _ => none)
      [{ id := none, subject := some " ", bodyPreview := none, senderName := none
       , receivedDateTime := none }] = ("", []) := by
  refine ⟨by decide, by decide, ?_⟩
  rfl

/-! ## Marker-slicing lemmas for the `generate_brief` parser -/

/-- When `mid` and `nxt` each occur exactly once in
`P ++ mid ++ (x ++ nxt ++ R)`, the `split(mid)[1].split(nxt)[0].strip()`
chain extracts exactly `pyStrip x`. -/
theorem sectionBetween_of_decomp (mid nxt P x R : List Char) (hm : mid ≠ []) (hn : nxt ≠ [])
    (h1 : occCount mid (P ++ (mid ++ (x ++ (nxt ++ R)))) = 1)
    (h2 : occCount nxt (P ++ (mid ++ (x ++ (nxt ++ R)))) = 1) :
    sectionBetween mid nxt (P ++ (mid ++ (x ++ (nxt ++ R)))) = pyStrip x := by
  have hu1 := unique_of_occCount_one mid _ hm h1
  have hu2 := unique_of_occCount_one nxt _ hn h2
  have hassoc : P ++ (mid ++ (x ++ (nxt ++ R))) = (P ++ mid) ++ (x ++ (nxt ++ R)) := by
    simp [List.append_assoc]
  have hsplit1 : splitOnce mid (P ++ (mid ++ (x ++ (nxt ++ R)))) =
      (P, some (x ++ (nxt ++ R))) :=
    splitOnce_of_unique mid P (x ++ (nxt ++ R)) hm hu1
  have hmidlen : 0 < mid.length := List.length_pos.2 hm
  have hnomid : ∀ j, ¬ occAt mid (x ++ (nxt ++ R)) j := by
    intro j hj
    have hsh : occAt mid ((P ++ mid) ++ (x ++ (nxt ++ R))) ((P ++ mid).length + j) :=
      occAt_shift mid (P ++ mid) (x ++ (nxt ++ R)) j hj
    rw [← hassoc] at hsh
    have hself : occAt mid (P ++ (mid ++ (x ++ (nxt ++ R)))) P.length :=
      occAt_self mid P (x ++ (nxt ++ R))
    have heq := hu1 _ _ hsh hself
    simp only [List.length_append] at heq
    omega
  have hsplit2 : splitOnce mid (x ++ (nxt ++ R)) = (x ++ (nxt ++ R), none) :=
    splitOnce_of_noOcc mid (x ++ (nxt ++ R)) hnomid
  have hsplit3 : splitOnce nxt (x ++ (nxt ++ R)) = (x, some R) := by
    refine splitOnce_first nxt x R hn ?_
    intro j hj
    have hsh : occAt nxt ((P ++ mid) ++ (x ++ (nxt ++ R))) ((P ++ mid).length + j) :=
      occAt_shift nxt (P ++ mid) (x ++ (nxt ++ R)) j hj
    rw [← hassoc] at hsh
    have hself0 : occAt nxt (x ++ (nxt ++ R)) x.length := occAt_self nxt x R
    have hself : occAt nxt ((P ++ mid) ++ (x ++ (nxt ++ R)))
        ((P ++ mid).length + x.length) :=
      occAt_shift nxt (P ++ mid) (x ++ (nxt ++ R)) x.length hself0
    rw [← hassoc] at hself
    have heq := hu2 _ _ hsh hself
    omega
  have hin : pyIn mid (P ++ (mid ++ (x ++ (nxt ++ R)))) = true := by
    unfold pyIn
    rw [hsplit1]
    rfl
  simp only [sectionBetween, hin, if_true, splitIdx1, hsplit1, beforeFirst, hsplit2, hsplit3]

/-- When `mid` occurs exactly once in `P ++ mid ++ x`, the
`split(mid)[1].strip()` chain extracts exactly `pyStrip x`. -/
theorem sectionTail_of_decomp (mid P x : List Char) (hm : mid ≠ [])
    (h1 : occCount mid (P ++ (mid ++ x)) = 1) :
    sectionTail mid (P ++ (mid ++ x)) = pyStrip x := by
  have hu1 := unique_of_occCount_one mid _ hm h1
  have hassoc : P ++ (mid ++ x) = (P ++ mid) ++ x := by simp [List.append_assoc]
  have hsplit1 : splitOnce mid (P ++ (mid ++ x)) = (P, some x) :=
    splitOnce_of_unique mid P x hm hu1
  have hmidlen : 0 < mid.length := List.length_pos.2 hm
  have hnomid : ∀ j, ¬ occAt mid x j := by
    intro j hj
    have hsh : occAt mid ((P ++ mid) ++ x) ((P ++ mid).length + j) :=
      occAt_shift mid (P ++ mid) x j hj
    rw [← hassoc] at hsh
    have hself : occAt mid (P ++ (mid ++ x)) P.length := occAt_self mid P x
    have heq := hu1 _ _ hsh hself
    simp only [List.length_append] at heq
    omega
  have hsplit2 : splitOnce mid x = (x, none) := splitOnce_of_noOcc mid x hnomid
  have hin : pyIn mid (P ++ (mid ++ x)) = true := by
    unfold pyIn
    rw [hsplit1]
    rfl
  simp only [sectionTail, hin, if_true, splitIdx1, hsplit1, hsplit2]

/-- A response text containing the six literal markers in order, with the
in-between segments made explicit. -/
def sixMarkerText (s0 s1 s2 s3 s4 s5 s6 : List Char) : List Char :=
  s0 ++ ("BRIEF".toList ++ (s1 ++ ("DECISIONS_REQUIRED:".toList ++
    (s2 ++ ("DRAFTS:".toList ++ (s3 ++ ("FOLLOWUPS:".toList ++
      (s4 ++ ("RISKS:".toList ++ (s5 ++ ("NEXT_ACTIONS:".toList ++ s6)))))))))))

/-- C1 (amended): in a response containing the six markers each exactly
once and in order, each of the five named sections is the
whitespace-stripped text strictly between its marker and the next
(NEXT_ACTIONS running to end of text); and in a response containing none
of the six markers, all five sections are empty and the brief is the full
raw text. -/
theorem generate_brief_sections_c1 :
    (∀ s0 s1 s2 s3 s4 s5 s6 : List Char,
      occCount "BRIEF".toList (sixMarkerText s0 s1 s2 s3 s4 s5 s6) = 1 →
      occCount "DECISIONS_REQUIRED:".toList (sixMarkerText s0 s1 s2 s3 s4 s5 s6) = 1 →
      occCount "DRAFTS:".toList (sixMarkerText s0 s1 s2 s3 s4 s5 s6) = 1 →
      occCount "FOLLOWUPS:".toList (sixMarkerText s0 s1 s2 s3 s4 s5 s6) = 1 →
      occCount "RISKS:".toList (sixMarkerText s0 s1 s2 s3 s4 s5 s6) = 1 →
      occCount "NEXT_ACTIONS:".toList (sixMarkerText s0 s1 s2 s3 s4 s5 s6) = 1 →
      (parseBriefResponse (sixMarkerText s0 s1 s2 s3 s4 s5 s6)).decisions_required =
          pyStrip s2 ∧
      (parseBriefResponse (sixMarkerText s0 s1 s2 s3 s4 s5 s6)).drafts = pyStrip s3 ∧
      (parseBriefResponse (sixMarkerText s0 s1 s2 s3 s4 s5 s6)).followups = pyStrip s4 ∧
      (parseBriefResponse (sixMarkerText s0 s1 s2 s3 s4 s5 s6)).risks = pyStrip s5 ∧
      (parseBriefResponse (sixMarkerText s0 s1 s2 s3 s4 s5 s6)).next_actions =
          pyStrip s6) ∧
    (∀ s : List Char,
      occCount "BRIEF".toList s = 0 →
      occCount "DECISIONS_REQUIRED:".toList s = 0 →
      occCount "DRAFTS:".toList s = 0 →
      occCount "FOLLOWUPS:".toList s = 0 →
      occCount "RISKS:".toList s = 0 →
      occCount "NEXT_ACTIONS:".toList s = 0 →
      parseBriefResponse s = ⟨s, [], [], [], [], []⟩) := by
  constructor
  · intro s0 s1 s2 s3 s4 s5 s6 hB h2 h3 h4 h5 h6
    refine ⟨?_, ?_, ?_, ?_, ?_⟩
    · show sectionBetween "DECISIONS_REQUIRED:".toList "DRAFTS:".toList
        (sixMarkerText s0 s1 s2 s3 s4 s5 s6) = pyStrip s2
      have e : sixMarkerText s0 s1 s2 s3 s4 s5 s6 =
          (s0 ++ ("BRIEF".toList ++ s1)) ++ ("DECISIONS_REQUIRED:".toList ++
            (s2 ++ ("DRAFTS:".toList ++ (s3 ++ ("FOLLOWUPS:".toList ++
              (s4 ++ ("RISKS:".toList ++ (s5 ++ ("NEXT_ACTIONS:".toList ++ s6))))))))) := by
        simp [sixMarkerText, List.append_assoc]
      rw [e] at h2 h3 ⊢
      exact sectionBetween_of_decomp _ _ _ _ _ (by decide) (by decide) h2 h3
    · show sectionBetween "DRAFTS:".toList "FOLLOWUPS:".toList
        (sixMarkerText s0 s1 s2 s3 s4 s5 s6) = pyStrip s3
      have e : sixMarkerText s0 s1 s2 s3 s4 s5 s6 =
          (s0 ++ ("BRIEF".toList ++ (s1 ++ ("DECISIONS_REQUIRED:".toList ++ s2)))) ++
            ("DRAFTS:".toList ++ (s3 ++ ("FOLLOWUPS:".toList ++
              (s4 ++ ("RISKS:".toList ++ (s5 ++ ("NEXT_ACTIONS:".toList ++ s6))))))) := by
        simp [sixMarkerText, List.append_assoc]
      rw [e] at h3 h4 ⊢
      exact sectionBetween_of_decomp _ _ _ _ _ (by decide) (by decide) h3 h4
    · show sectionBetween "FOLLOWUPS:".toList "RISKS:".toList
        (sixMarkerText s0 s1 s2 s3 s4 s5 s6) = pyStrip s4
      have e : sixMarkerText s0 s1 s2 s3 s4 s5 s6 =
          (s0 ++ ("BRIEF".toList ++ (s1 ++ ("DECISIONS_REQUIRED:".toList ++
            (s2 ++ ("DRAFTS:".toList ++ s3)))))) ++
            ("FOLLOWUPS:".toList ++ (s4 ++ ("RISKS:".toList ++
              (s5 ++ ("NEXT_ACTIONS:".toList ++ s6))))) := by
        simp [sixMarkerText, List.append_assoc]
      rw [e] at h4 h5 ⊢
      exact sectionBetween_of_decomp _ _ _ _ _ (by decide) (by decide) h4 h5
    · show sectionBetween "RISKS:".toList "NEXT_ACTIONS:".toList
        (sixMarkerText s0 s1 s2 s3 s4 s5 s6) = pyStrip s5
      have e : sixMarkerText s0 s1 s2 s3 s4 s5 s6 =
          (s0 ++ ("BRIEF".toList ++ (s1 ++ ("DECISIONS_REQUIRED:".toList ++
            (s2 ++ ("DRAFTS:".toList ++ (s3 ++ ("FOLLOWUPS:".toList ++ s4)))))))) ++
            ("RISKS:".toList ++ (s5 ++ ("NEXT_ACTIONS:".toList ++ s6))) := by
        simp [sixMarkerText, List.append_assoc]
      rw [e] at h5 h6 ⊢
      exact sectionBetween_of_decomp _ _ _ _ _ (by decide) (by decide) h5 h6
    · show sectionTail "NEXT_ACTIONS:".toList
        (sixMarkerText s0 s1 s2 s3 s4 s5 s6) = pyStrip s6
      have e : sixMarkerText s0 s1 s2 s3 s4 s5 s6 =
          (s0 ++ ("BRIEF".toList ++ (s1 ++ ("DECISIONS_REQUIRED:".toList ++
            (s2 ++ ("DRAFTS:".toList ++ (s3 ++ ("FOLLOWUPS:".toList ++
              (s4 ++ ("RISKS:".toList ++ s5)))))))))) ++
            ("NEXT_ACTIONS:".toList ++ s6) := by
        simp [sixMarkerText, List.append_assoc]
      rw [e] at h6 ⊢
      exact sectionTail_of_decomp _ _ _ (by decide) h6
  · intro s h1 h2 h3 h4 h5 h6
    have hb : pyIn "BRIEF".toList s = false := by
      unfold pyIn
      rw [splitOnce_of_noOcc _ _ (noOcc_of_occCount_zero _ _ (by decide) h1)]
      rfl
    have hm2 : pyIn "DECISIONS_REQUIRED:".toList s = false := by
      unfold pyIn
      rw [splitOnce_of_noOcc _ _ (noOcc_of_occCount_zero _ _ (by decide) h2)]
      rfl
    have hm3 : pyIn "DRAFTS:".toList s = false := by
      unfold pyIn
      rw [splitOnce_of_noOcc _ _ (noOcc_of_occCount_zero _ _ (by decide) h3)]
      rfl
    have hm4 : pyIn "FOLLOWUPS:".toList s = false := by
      unfold pyIn
      rw [splitOnce_of_noOcc _ _ (noOcc_of_occCount_zero _ _ (by decide) h4)]
      rfl
    have hm5 : pyIn "RISKS:".toList s = false := by
      unfold pyIn
      rw [splitOnce_of_noOcc _ _ (noOcc_of_occCount_zero _ _ (by decide) h5)]
      rfl
    have hm6 : pyIn "NEXT_ACTIONS:".toList s = false := by
      unfold pyIn
      rw [splitOnce_of_noOcc _ _ (noOcc_of_occCount_zero _ _ (by decide) h6)]
      rfl
    have hbrief : briefFromResponse s = s := by
      unfold briefFromResponse
      rw [hb]
      simp
    have hd2 : sectionBetween "DECISIONS_REQUIRED:".toList "DRAFTS:".toList s = [] := by
      unfold sectionBetween; rw [hm2]; simp
    have hd3 : sectionBetween "DRAFTS:".toList "FOLLOWUPS:".toList s = [] := by
      unfold sectionBetween; rw [hm3]; simp
    have hd4 : sectionBetween "FOLLOWUPS:".toList "RISKS:".toList s = [] := by
      unfold sectionBetween; rw [hm4]; simp
    have hd5 : sectionBetween "RISKS:".toList "NEXT_ACTIONS:".toList s = [] := by
      unfold sectionBetween; rw [hm5]; simp
    have hd6 : sectionTail "NEXT_ACTIONS:".toList s = [] := by
      unfold sectionTail; rw [hm6]; simp
    unfold parseBriefResponse
    rw [hbrief, hd2, hd3, hd4, hd5, hd6]

/-- C1 witness: a response with all six markers exactly once, in order,
and a marker-free response. -/
theorem generate_brief_sections_c1_witness :
    (parseBriefResponse (sixMarkerText "".toList ": x".toList " d ".toList " e".toList
        " f".toList " g".toList " h".toList)).decisions_required = pyStrip " d ".toList ∧
    parseBriefResponse "no markers here".toList =
      ⟨"no markers here".toList, [], [], [], [], []⟩ := by
  constructor
  · exact (generate_brief_sections_c1.1 "".toList ": x".toList " d ".toList " e".toList
      " f".toList " g".toList " h".toList (by decide) (by decide) (by decide) (by decide)
      (by decide) (by decide)).1
  · exact generate_brief_sections_c1.2 "no markers here".toList (by decide) (by decide)
      (by decide) (by decide) (by decide) (by decide)

/-- C1 counterexample to the claim as stated: in a response with all six
markers exactly once and in order, the substring strictly between
DECISIONS_REQUIRED: and DRAFTS: is " d ", but the parser returns the
stripped "d", so the section is not "exactly the substring strictly
between" the markers. -/
theorem generate_brief_sections_c1_counterexample :
    "BRIEF: b DECISIONS_REQUIRED: d DRAFTS: e FOLLOWUPS: f RISKS: g NEXT_ACTIONS: h".toList
      = sixMarkerText "".toList ": b ".toList " d ".toList " e ".toList " f ".toList
          " g ".toList " h".toList ∧
    occCount "BRIEF".toList
      "BRIEF: b DECISIONS_REQUIRED: d DRAFTS: e FOLLOWUPS: f RISKS: g NEXT_ACTIONS: h".toList
      = 1 ∧
    occCount "DECISIONS_REQUIRED:".toList
      "BRIEF: b DECISIONS_REQUIRED: d DRAFTS: e FOLLOWUPS: f RISKS: g NEXT_ACTIONS: h".toList
      = 1 ∧
    occCount "DRAFTS:".toList
      "BRIEF: b DECISIONS_REQUIRED: d DRAFTS: e FOLLOWUPS: f RISKS: g NEXT_ACTIONS: h".toList
      = 1 ∧
    occCount "FOLLOWUPS:".toList
      "BRIEF: b DECISIONS_REQUIRED: d DRAFTS: e FOLLOWUPS: f RISKS: g NEXT_ACTIONS: h".toList
      = 1 ∧
    occCount "RISKS:".toList
      "BRIEF: b DECISIONS_REQUIRED: d DRAFTS: e FOLLOWUPS: f RISKS: g NEXT_ACTIONS: h".toList
      = 1 ∧
    occCount "NEXT_ACTIONS:".toList
      "BRIEF: b DECISIONS_REQUIRED: d DRAFTS: e FOLLOWUPS: f RISKS: g NEXT_ACTIONS: h".toList
      = 1 ∧
    (parseBriefResponse
      "BRIEF: b DECISIONS_REQUIRED: d DRAFTS: e FOLLOWUPS: f RISKS: g NEXT_ACTIONS: h".toList
      ).decisions_required = "d".toList ∧
    "d".toList ≠ " d ".toList := by
  refine ⟨by decide, by decide, by decide, by decide, by decide, by decide, by decide,
    by decide, by decide⟩

/-- C2 (amended): when the response decomposes at the first "BRIEF" and,
after it, at the first "DECISIONS_REQUIRED" (the `noOccBelow` hypotheses
say the decompositions are at first occurrences), the extracted brief is:
with no colon in the in-between region, its whitespace-stripped text; and
with a colon before "DECISIONS_REQUIRED", the whitespace-stripped text
after the FIRST colon of the region (everything up to and including that
colon is removed, not merely an optional leading colon).  When either
substring is absent, the brief is the full raw response text. -/
theorem generate_brief_text_c2 :
    (∀ s0 s1 s2 : List Char,
      noOccBelow "BRIEF".toList
        (s0 ++ ("BRIEF".toList ++ (s1 ++ ("DECISIONS_REQUIRED".toList ++ s2))))
        s0.length = true →
      noOccBelow "DECISIONS_REQUIRED".toList
        (s1 ++ ("DECISIONS_REQUIRED".toList ++ s2)) s1.length = true →
      ((pyIn ":".toList s1 = false →
        briefFromResponse
          (s0 ++ ("BRIEF".toList ++ (s1 ++ ("DECISIONS_REQUIRED".toList ++ s2)))) =
          pyStrip s1) ∧
       (∀ u v, s1 = u ++ (":".toList ++ v) →
        noOccBelow ":".toList s1 u.length = true →
        briefFromResponse
          (s0 ++ ("BRIEF".toList ++ (s1 ++ ("DECISIONS_REQUIRED".toList ++ s2)))) =
          pyStrip v))) ∧
    (∀ s : List Char,
      pyIn "BRIEF".toList s = false ∨ pyIn "DECISIONS_REQUIRED".toList s = false →
      briefFromResponse s = s) := by
  constructor
  · intro s0 s1 s2 h1 h2
    have hsplitB : splitOnce "BRIEF".toList
        (s0 ++ ("BRIEF".toList ++ (s1 ++ ("DECISIONS_REQUIRED".toList ++ s2)))) =
        (s0, some (s1 ++ ("DECISIONS_REQUIRED".toList ++ s2))) :=
      splitOnce_first _ s0 _ (by decide) (le_of_noOccBelow _ _ _ h1)
    have hsplitD : splitOnce "DECISIONS_REQUIRED".toList
        (s1 ++ ("DECISIONS_REQUIRED".toList ++ s2)) = (s1, some s2) :=
      splitOnce_first _ s1 s2 (by decide) (le_of_noOccBelow _ _ _ h2)
    have hinB : pyIn "BRIEF".toList
        (s0 ++ ("BRIEF".toList ++ (s1 ++ ("DECISIONS_REQUIRED".toList ++ s2)))) = true := by
      unfold pyIn
      rw [hsplitB]
      rfl
    have hinD : pyIn "DECISIONS_REQUIRED".toList
        (s0 ++ ("BRIEF".toList ++ (s1 ++ ("DECISIONS_REQUIRED".toList ++ s2)))) = true := by
      have hocc : occAt "DECISIONS_REQUIRED".toList
          (s1 ++ ("DECISIONS_REQUIRED".toList ++ s2)) s1.length := occAt_self _ s1 s2
      have hsh := occAt_shift "DECISIONS_REQUIRED".toList (s0 ++ "BRIEF".toList)
        (s1 ++ ("DECISIONS_REQUIRED".toList ++ s2)) _ hocc
      have he : (s0 ++ "BRIEF".toList) ++ (s1 ++ ("DECISIONS_REQUIRED".toList ++ s2)) =
          s0 ++ ("BRIEF".toList ++ (s1 ++ ("DECISIONS_REQUIRED".toList ++ s2))) := by
        simp [List.append_assoc]
      rw [he] at hsh
      exact pyIn_of_occAt _ _ _ hsh
    have haft : afterFirstD "BRIEF".toList
        (s0 ++ ("BRIEF".toList ++ (s1 ++ ("DECISIONS_REQUIRED".toList ++ s2)))) =
        s1 ++ ("DECISIONS_REQUIRED".toList ++ s2) := by
      unfold afterFirstD
      rw [hsplitB]
      rfl
    have hbef : beforeFirst "DECISIONS_REQUIRED".toList
        (s1 ++ ("DECISIONS_REQUIRED".toList ++ s2)) = s1 := by
      unfold beforeFirst
      rw [hsplitD]
    constructor
    · intro hcol
      unfold briefFromResponse
      simp only [hinB, hinD, Bool.and_self, if_true, haft, hbef, hcol, Bool.false_eq_true,
        if_false]
    · intro u v huv hcu
      subst huv
      have hinCol : pyIn ":".toList (u ++ (":".toList ++ v)) = true :=
        pyIn_of_occAt _ _ u.length (occAt_self _ u v)
      have hclen : ((":".toList : List Char)).length = 1 := by decide
      have he2 : (u ++ (":".toList ++ v)) ++ ("DECISIONS_REQUIRED".toList ++ s2) =
          u ++ (":".toList ++ (v ++ ("DECISIONS_REQUIRED".toList ++ s2))) := by
        simp [List.append_assoc]
      have hcolsplit : splitOnce ":".toList
          ((u ++ (":".toList ++ v)) ++ ("DECISIONS_REQUIRED".toList ++ s2)) =
          (u, some (v ++ ("DECISIONS_REQUIRED".toList ++ s2))) := by
        rw [he2]
        refine splitOnce_first _ u _ (by decide) ?_
        intro j hj
        by_cases hle : u.length ≤ j
        · exact hle
        · exfalso
          push_neg at hle
          rw [← he2] at hj
          have hj' : occAt ":".toList (u ++ (":".toList ++ v)) j := by
            refine occAt_of_append_left _ _ _ j hj ?_
            simp only [List.length_append, hclen]
            omega
          have := le_of_noOccBelow _ _ _ hcu j hj'
          omega
      have haft2 : afterFirstD ":".toList
          ((u ++ (":".toList ++ v)) ++ ("DECISIONS_REQUIRED".toList ++ s2)) =
          v ++ ("DECISIONS_REQUIRED".toList ++ s2) := by
        unfold afterFirstD
        rw [hcolsplit]
        rfl
      have hsplitD2 : splitOnce "DECISIONS_REQUIRED".toList
          (v ++ ("DECISIONS_REQUIRED".toList ++ s2)) = (v, some s2) := by
        refine splitOnce_first _ v s2 (by decide) ?_
        intro j hj
        have hsh := occAt_shift "DECISIONS_REQUIRED".toList (u ++ ":".toList)
          (v ++ ("DECISIONS_REQUIRED".toList ++ s2)) j hj
        have he4 : (u ++ ":".toList) ++ (v ++ ("DECISIONS_REQUIRED".toList ++ s2)) =
            (u ++ (":".toList ++ v)) ++ ("DECISIONS_REQUIRED".toList ++ s2) := by
          simp [List.append_assoc]
        rw [he4] at hsh
        have hle := le_of_noOccBelow _ _ _ h2 _ hsh
        simp only [List.length_append, hclen] at hle
        omega
      have hbef2 : beforeFirst "DECISIONS_REQUIRED".toList
          (v ++ ("DECISIONS_REQUIRED".toList ++ s2)) = v := by
        unfold beforeFirst
        rw [hsplitD2]
      unfold briefFromResponse
      simp only [hinB, hinD, Bool.and_self, if_true, haft, hbef, hinCol, haft2, hbef2]
  · intro s h
    rcases h with h | h
    · unfold briefFromResponse
      rw [h]
      simp
    · unfold briefFromResponse
      rw [h]
      simp

/-- C2 witness: the colon case at a concrete response, and the
marker-free case. -/
theorem generate_brief_text_c2_witness :
    briefFromResponse ("".toList ++ ("BRIEF".toList ++ (" a:b ".toList ++
      ("DECISIONS_REQUIRED".toList ++ "".toList)))) = pyStrip "b ".toList ∧
    briefFromResponse "plain text".toList = "plain text".toList := by
  constructor
  · exact (generate_brief_text_c2.1 "".toList " a:b ".toList "".toList (by decide)
      (by decide)).2 " a".toList "b ".toList (by decide) (by decide)
  · exact generate_brief_text_c2.2 "plain text".toList (Or.inl (by decide))

/-- C2 counterexample to the claim as stated: in
"BRIEF a:b DECISIONS_REQUIRED" the substring after the first "BRIEF" and
before the first "DECISIONS_REQUIRED" is " a:b ", which has no leading
colon, yet the code returns "b": it deletes everything up to the first
colon (and strips whitespace), so the claim's description of the
extracted brief is false on this input. -/
theorem generate_brief_text_c2_counterexample :
    pyIn "BRIEF".toList "BRIEF a:b DECISIONS_REQUIRED".toList = true ∧
    pyIn "DECISIONS_REQUIRED".toList "BRIEF a:b DECISIONS_REQUIRED".toList = true ∧
    "BRIEF a:b DECISIONS_REQUIRED".toList =
      "BRIEF".toList ++ (" a:b ".toList ++ "DECISIONS_REQUIRED".toList) ∧
    briefFromResponse "BRIEF a:b DECISIONS_REQUIRED".toList = "b".toList ∧
    "b".toList ≠ " a:b ".toList ∧
    "b".toList ≠ pyStrip " a:b ".toList := by
  refine ⟨by decide, by decide, by decide, by decide, by decide, by decide⟩

end OA
